import Mathlib

/-!
Shallow embedding of `src/lib/validate.js` of the serverless-webpack plugin.

The module exports a single `validate()` method that
  * derives bundler entry points from the declared serverless functions
    (`getHandlerFile`, `getEntryExtension`, `getEntryForFunction`),
  * commits the shared `lib` state (serverless instance, options, entries),
  * loads or takes the webpack configuration and applies defaults,
  * removes the output directory and finalizes the configuration, fanning
    it out per function when `package.individually` is set.

External collaborators (globby, fs-extra, require, the serverless host) are
modelled as explicit inputs: the candidate-listing service is a function
`String → List String`, file existence a predicate, the config loader an
`Except`-valued function, the CLI log a list of emitted lines and the
directory removal a list of removed paths.
-/

/-- Node `path.join` restricted to the shapes exercised here: plain relative
segments joined with `/` (no `..` or `.` normalization, which the repository
never relies on for the joined segments). -/
def pathJoin (a b : String) : String :=
  if a = "" then b else if b = "" then a else a ++ "/" ++ b

/-- Node `path.relative('.', s)` for the path shapes produced by
`getHandlerFile`: it strips a leading `./` and otherwise returns the string
unchanged. -/
def relativeDot (s : String) : String :=
  match s.data with
  | '.' :: '/' :: rest => String.mk rest
  | _ => s

/-- Split a character list on a separator character; like `String.splitOn`
for a one-character separator (the empty list yields one empty piece). -/
def splitOnChar (sep : Char) : List Char → List (List Char)
  | [] => [[]]
  | c :: cs =>
    let r := splitOnChar sep cs
    if c = sep then [] :: r
    else
      match r with
      | [] => [[c]]
      | w :: ws => (c :: w) :: ws

/-- Node `path.extname` on a character list: the suffix of the last path
segment starting at its last `.`, or `[]` when the segment has no dot or
only a single leading dot (`.foo`). -/
def extnameL (l : List Char) : List Char :=
  let base := (splitOnChar '/' l).getLastD []
  match splitOnChar '.' base with
  | [] => []
  | [_] => []
  | p :: rest => if p = [] ∧ rest.length = 1 then [] else '.' :: (p :: rest).getLastD []

/-- Node `path.extname`. Matches Node on every file name produced by a
`base.*` glob. -/
def extname (s : String) : String := String.mk (extnameL s.data)

/-- Split a character list at its last `.`: returns `(before, after)` where
`after` contains no `.`, or `none` when the list has no `.` at all. This is
the effect of the regex `/(.*)\..*?$/` in `getHandlerFile` (the greedy `(.*)`
captures everything before the last dot). -/
def breakAtLastDot : List Char → Option (List Char × List Char)
  | [] => none
  | c :: cs =>
    match breakAtLastDot cs with
    | some (pre, suf) => some (c :: pre, suf)
    | none => if c = '.' then some ([], cs) else none

/-- `getHandlerFile` of `src/lib/validate.js` (lines 24-30): the capture group
before the last `.` of the handler string, or `none` when the regex does not
match (no dot present). -/
def getHandlerFile (handler : String) : Option String :=
  (breakAtLastDot handler.data).map (fun pr => String.mk pr.1)

/-- The suffix of the handler string after its last dot (as characters);
`[]` when there is no dot. Used to state what `getHandlerFile` strips. -/
def suffixAfterLastDot (s : String) : List Char :=
  ((breakAtLastDot s.data).map Prod.snd).getD []

/-- The preferred-extension list of `src/lib/validate.js` (lines 15-20). -/
def preferredExtensions : List String := [".js", ".ts", ".jsx", ".tsx"]

/-- Stable insertion of a string into a list sorted ascending by length. -/
def insertByLen (x : String) : List String → List String
  | [] => [x]
  | y :: ys => if x.length ≤ y.length then x :: y :: ys else y :: insertByLen x ys

/-- `_.sortBy(files, a => _.size(a))`: stable ascending sort by string
length. -/
def sortByLen : List String → List String
  | [] => []
  | x :: xs => insertByLen x (sortByLen xs)

/-- `_.uniq` keeping the first occurrence of each element. -/
def dedupAux (seen : List String) : List String → List String
  | [] => []
  | x :: xs => if seen.contains x then dedupAux seen xs else x :: dedupAux (seen ++ [x]) xs

/-- `_.uniq` of lodash: deduplicate preserving first occurrences. -/
def dedupFirst (l : List String) : List String := dedupAux [] l

/-- `getEntryExtension` of `src/lib/validate.js` (lines 32-58). The listing
service `glob` stands for `globby.sync` scoped to the service path. Returns
the CLI log lines emitted together with either the resolved extension or the
fatal no-candidate error. -/
def getEntryExtension (glob : String → List String) (fileName : String) :
    List String × Except String String :=
  let files := glob (fileName ++ ".*")
  if files.isEmpty then
    ([], .error ("No matching handler found for '" ++ fileName ++
      "'. Check your service definition."))
  else
    let sortedFiles := dedupFirst
      (sortByLen (files.filter (fun f => preferredExtensions.contains (extname f))) ++ files)
    let logs :=
      if sortedFiles.length > 1 then
        ["WARNING: More than one matching handlers found for '" ++ fileName ++
          "'. Using '" ++ sortedFiles.headD "" ++ "'."]
      else []
    (logs, .ok (extname (sortedFiles.headD "")))

/-- A declared serverless function; only the `handler` field is read by
`validate`. -/
structure SFunction where
  handler : String
deriving DecidableEq

/-- The warning logged when a function's entry cannot be retrieved
(`src/lib/validate.js` line 66). -/
def entryWarning (name handler : String) : String :=
  "\nWARNING: Entry for " ++ name ++ "@" ++ handler ++
    " could not be retrieved.\nPlease check your service config if you want to use lib.entries."

/-- `getEntryForFunction` of `src/lib/validate.js` (lines 60-75). A handler
whose parse result is `undefined` or the empty string (`!handlerFile`) yields
no entry; the warning is suppressed when the provider is `google`. -/
def getEntryForFunction (glob : String → List String) (provider : Option String)
    (name : String) (f : SFunction) : List String × Except String (List (String × String)) :=
  match getHandlerFile f.handler with
  | some hf =>
    if hf = "" then
      ((if provider == some "google" then [] else [entryWarning name f.handler]), .ok [])
    else
      match getEntryExtension glob hf with
      | (l, .error e) => (l, .error e)
      | (l, .ok ext) => (l, .ok [(hf, "./" ++ hf ++ ext)])
  | none => ((if provider == some "google" then [] else [entryWarning name f.handler]), .ok [])

/-- `_.merge` of a single-level string map into an association list keeping
object key order: an existing key is overwritten in place, a new key is
appended. -/
def setEntry (m : List (String × String)) (k v : String) : List (String × String) :=
  if m.any (fun kv => kv.1 == k) then
    m.map (fun kv => if kv.1 == k then (k, v) else kv)
  else m ++ [(k, v)]

/-- Merge the entries produced for one function into the accumulated entry
map (`_.merge(entries, entry)`). -/
def mergeEntries (acc m : List (String × String)) : List (String × String) :=
  m.foldl (fun a kv => setEntry a kv.1 kv.2) acc

/-- The entry-resolution loop of `validate` (lines 91-96): fold
`getEntryForFunction` over the declared functions, accumulating the entry
map and the emitted log lines; a thrown error aborts the fold. -/
def resolveEntriesList (glob : String → List String) (provider : Option String) :
    List (String × SFunction) → List (String × String) → List String →
    List String × Except String (List (String × String))
  | [], acc, logs => (logs, .ok acc)
  | nf :: rest, acc, logs =>
    match getEntryForFunction glob provider nf.1 nf.2 with
    | (l, .error e) => (logs ++ l, .error e)
    | (l, .ok m) => resolveEntriesList glob provider rest (mergeEntries acc m) (logs ++ l)

/-- A webpack `entry` value as declared in a raw configuration: a string, an
array, or an object mapping entry names to paths. -/
inductive EntryDecl where
  | str (s : String)
  | arr (l : List String)
  | emap (m : List (String × String))
deriving DecidableEq

/-- A webpack `output` object; every field optional. -/
structure OutputConfig where
  libraryTarget : Option String := none
  path : Option String := none
  filename : Option String := none
deriving DecidableEq

/-- The slice of a webpack configuration object read or written by
`validate`. -/
structure WebpackConfig where
  entry : Option EntryDecl := none
  context : Option String := none
  target : Option String := none
  devtool : Option String := none
  output : Option OutputConfig := none
deriving DecidableEq

/-- `custom.webpack` is either an inline configuration object or a file path
string (defaulted to `webpack.config.js` when absent). -/
inductive ConfigSource where
  | inline (c : WebpackConfig)
  | file (s : String)

/-- All inputs consumed by `validate`: the serverless host state, the plugin
options, and the external filesystem/loader services. -/
structure ValidateInput where
  servicePath : String := ""
  providerName : Option String := none
  functions : List (String × SFunction) := []
  optFunction : Option String := none
  optOut : Option String := none
  optVerbose : Bool := false
  keepOutputDirectory : Bool := false
  customWebpack : Option ConfigSource := none
  individually : Bool := false
  glob : String → List String := fun _ => []
  fileExists : String → Bool := fun _ => false
  loadConfig : String → Except String WebpackConfig := fun _ => .error ""

/-- The entry-resolution stage of `validate` (lines 84-96): a single selected
function (`options.function`, whose absence from the service is a fatal host
error) or all declared functions in order. -/
def resolveEntriesStage (inp : ValidateInput) :
    List String × Except String (List (String × String)) :=
  match inp.optFunction with
  | some fname =>
    match inp.functions.lookup fname with
    | none => ([], .error ("Function \"" ++ fname ++ "\" doesn't exist in this Service"))
    | some f =>
      match getEntryForFunction inp.glob inp.providerName fname f with
      | (l, .error e) => (l, .error e)
      | (l, .ok m) => (l, .ok (mergeEntries [] m))
  | none => resolveEntriesList inp.glob inp.providerName inp.functions [] []

/-- The configuration-loading stage (lines 77-81 and 103-115): an inline
object is used directly; a string is joined with the service path, must
exist, and is loaded, with a log line emitted before a load error is
propagated. -/
def loadConfigStage (inp : ValidateInput) : List String × Except String WebpackConfig :=
  match inp.customWebpack.getD (.file "webpack.config.js") with
  | .inline c => ([], .ok c)
  | .file s =>
    let full := pathJoin inp.servicePath s
    if inp.fileExists full then
      match inp.loadConfig full with
      | .ok c => ([], .ok c)
      | .error e => (["Could not load webpack config '" ++ full ++ "'"], .error e)
    else
      ([], .error ("The webpack plugin could not find the configuration file at: " ++ full))

/-- JavaScript truthiness of an optional string field (absent or `""` is
falsy). -/
def strTruthy : Option String → Bool
  | none => false
  | some s => !(s == "")

/-- `!this.webpackConfig.output || _.isEmpty(this.webpackConfig.output)`:
the output object is absent or has no own keys. -/
def outputIsEmpty : Option OutputConfig → Bool
  | none => true
  | some c => c.libraryTarget.isNone && c.path.isNone && c.filename.isNone

/-- The default output object installed at lines 130-134. -/
def defaultOutput (servicePath : String) : OutputConfig :=
  { libraryTarget := some "commonjs"
    path := some (pathJoin servicePath ".webpack")
    filename := some "[name].js" }

/-- The defaulting stage (lines 117-135): default `context` to the service
path, `target` to `node`, and — only when `output` is absent or empty —
install the full default output object. -/
def applyDefaults (servicePath : String) (cfg : WebpackConfig) : WebpackConfig :=
  let cfg := if strTruthy cfg.context then cfg else { cfg with context := some servicePath }
  let cfg := if strTruthy cfg.target then cfg else { cfg with target := some "node" }
  if outputIsEmpty cfg.output then
    { cfg with output := some (defaultOutput servicePath) }
  else cfg

/-- The custom output-path override (lines 137-140): `options.out`, when
given, replaces `output.path` with `<servicePath>/<out>`. -/
def applyOut (inp : ValidateInput) (cfg : WebpackConfig) : WebpackConfig :=
  match inp.optOut with
  | none => cfg
  | some o =>
    let out := cfg.output.getD ({} : OutputConfig)
    { cfg with output := some { out with path := some (pathJoin inp.servicePath o) } }

/-- Truthiness of `this.webpackConfig.entry` in the conflict check at line
153: absent or the empty string is falsy, arrays and objects are truthy. -/
def entryTruthy : Option EntryDecl → Bool
  | none => false
  | some (.str s) => !(s == "")
  | some (.arr _) => true
  | some (.emap _) => true

/-- `_.isEqual` of two string maps represented as association lists with
unique keys: key order is irrelevant, both must agree on every key. -/
def mapsEqual (a b : List (String × String)) : Bool :=
  a.all (fun kv => b.lookup kv.1 == some kv.2) && b.all (fun kv => a.lookup kv.1 == some kv.2)

/-- `_.isEqual(this.webpackConfig.entry, entries)`: only an object-valued
entry can be deep-equal to the resolved entry map. -/
def entryEqualsEntries : Option EntryDecl → List (String × String) → Bool
  | some (.emap m), e => mapsEqual m e
  | _, _ => false

/-- The per-function record built at lines 160-172: the parsed handler file
(relative to `.`), the function name and the function object. A handler
that does not parse leaves `handlerFile` absent (the original code would
throw a `TypeError` from `path.relative` there; no claim exercises it). -/
structure EntryFnInfo where
  handlerFile : Option String
  funcName : String
  func : SFunction
deriving DecidableEq

/-- `allEntryFunctions` (lines 160-172). -/
def mkAllEntryFunctions (funcs : List (String × SFunction)) : List EntryFnInfo :=
  funcs.map (fun nf =>
    { handlerFile := (getHandlerFile nf.2.handler).map relativeDot
      funcName := nf.1
      func := nf.2 })

/-- An EntryFunctionBinding (lines 174-190): a resolved entry paired with its
originating function, or an empty placeholder when no function matches. -/
structure EntryFunctionBinding where
  handlerFile : Option String := none
  funcName : Option String := none
  func : Option SFunction := none
  entry : Option (String × String) := none
deriving DecidableEq

/-- The extension-stripped relative path of an entry value (lines 175-176):
`path.relative('.', value)` with its `path.extname` suffix removed. -/
def entryFileOf (v : String) : String :=
  let e := relativeDot v
  String.mk (e.data.take (e.data.length - (extnameL e.data).length))

/-- `this.entryFunctions` (lines 174-190): for every entry, all functions
whose `handlerFile` equals the entry's stripped path, or one synthesized
empty binding when none matches; each binding carries the entry. -/
def mkEntryFunctions (entries : List (String × String)) (aef : List EntryFnInfo) :
    List EntryFunctionBinding :=
  entries.flatMap (fun kv =>
    let entryFile := entryFileOf kv.2
    let matched := aef.filter (fun fi => fi.handlerFile == some entryFile)
    let efs : List EntryFunctionBinding :=
      if matched.isEmpty then [{}]
      else matched.map (fun fi =>
        { handlerFile := fi.handlerFile, funcName := some fi.funcName, func := some fi.func })
    efs.map (fun b => { b with entry := some kv }))

/-- Character classes used by the lodash word splitter: lower, upper, digit,
separator. -/
def chKind (c : Char) : Nat :=
  if 'a' ≤ c ∧ c ≤ 'z' then 0
  else if 'A' ≤ c ∧ c ≤ 'Z' then 1
  else if '0' ≤ c ∧ c ≤ '9' then 2
  else 3

/-- Append the current (reversed) word to the accumulated words if it is
nonempty. -/
def flushWord (acc : List (List Char)) (cur : List Char) : List (List Char) :=
  if cur.isEmpty then acc else acc ++ [cur.reverse]

/-- Word splitting of lodash `_.words` on ASCII strings (no ordinal-number
special cases, which never occur here): words break at separators, at
letter/digit boundaries, and before the last upper-case letter of a run that
is followed by a lower-case letter. -/
def wordsAux : List Char → List (List Char) → List Char → List (List Char)
  | [], acc, cur => flushWord acc cur
  | c :: cs, acc, cur =>
    match cur with
    | [] => if chKind c = 3 then wordsAux cs acc [] else wordsAux cs acc [c]
    | h :: t =>
      if chKind c = 3 then wordsAux cs (flushWord acc cur) []
      else if chKind c = chKind h then wordsAux cs acc (c :: cur)
      else if chKind h = 1 ∧ chKind c = 0 then wordsAux cs (flushWord acc t) [c, h]
      else wordsAux cs (flushWord acc cur) [c]

/-- `_.camelCase` of lodash on ASCII strings: every word lower-cased, the
first letters of all words but the first upper-cased, concatenated. -/
def camelCase (s : String) : String :=
  match wordsAux s.data [] [] with
  | [] => ""
  | w :: ws =>
    String.mk ((w.map Char.toLower) ++
      (ws.map (fun u =>
        match u.map Char.toLower with
        | [] => []
        | c :: cs => Char.toUpper c :: cs)).flatten)

/-- The per-binding configuration (lines 192-200): a deep copy of the base
configuration with `entry` set to the binding's singleton entry and the
compile name (`funcName || _.camelCase(entry.key)`) appended to
`output.path`. -/
def mkConfig (base : WebpackConfig) (b : EntryFunctionBinding) : WebpackConfig :=
  let kv := b.entry.getD ("", "")
  let compileName :=
    match b.funcName with
    | some n => if n = "" then camelCase kv.1 else n
    | none => camelCase kv.1
  let out := base.output.getD ({} : OutputConfig)
  { base with
    entry := some (.emap [kv])
    output := some { out with path := some (pathJoin (out.path.getD "") compileName) } }

/-- The final configuration handed to the bundler: one object or one per
function. -/
inductive ResolvedOut where
  | single (c : WebpackConfig)
  | multi (cs : List WebpackConfig)
deriving DecidableEq

/-- The observable state `validate` leaves on the plugin and on the shared
`lib` module: the three `lib` fields (lines 99-101), the emitted CLI log,
the removed directories, and the computed results. -/
structure VState where
  libServerless : Bool := false
  libOptions : Bool := false
  libEntries : Option (List (String × String)) := none
  logs : List String := []
  removed : List String := []
  multiCompile : Bool := false
  webpackOutputPath : Option String := none
  webpackConfig : Option ResolvedOut := none
  entryFunctions : List EntryFunctionBinding := []
deriving DecidableEq

/-- The fatal message of the conflicting-entry check (lines 154-156). -/
def conflictMsg : String :=
  "Webpack entry must be automatically resolved when package.individually is set to true. " ++
    "In webpack.config.js, remove the entry declaration or set entry to slsw.lib.entries."

/-- Lines 142-203 of `validate`: output-directory removal, recording of
`webpackOutputPath`, and the mutually exclusive single / isolated
finalization modes. -/
def finalizeStage (inp : ValidateInput) (entries : List (String × String))
    (cfg : WebpackConfig) (s : VState) : VState × Option String :=
  let outPath := ((cfg.output.getD ({} : OutputConfig)).path).getD ""
  let s :=
    if inp.keepOutputDirectory then s
    else
      { s with
        logs := s.logs ++ (if inp.optVerbose then ["Removing " ++ outPath] else [])
        removed := s.removed ++ [outPath] }
  let s := { s with webpackOutputPath := some outPath }
  if inp.individually then
    let s :=
      { s with
        logs := s.logs ++
          (if inp.optVerbose then ["Using multi-compile (individual packaging)"] else [])
        multiCompile := true }
    if entryTruthy cfg.entry && !(entryEqualsEntries cfg.entry entries) then
      (s, some conflictMsg)
    else
      let efs := mkEntryFunctions entries (mkAllEntryFunctions inp.functions)
      ({ s with
          entryFunctions := efs
          webpackConfig := some (.multi (efs.map (mkConfig cfg))) }, none)
  else
    let out := cfg.output.getD ({} : OutputConfig)
    ({ s with webpackConfig := some (.single
        { cfg with output := some { out with path := some (pathJoin outPath "service") } }) },
      none)

/-- `validate()` of `src/lib/validate.js`: entry resolution, commit of the
shared `lib` state, configuration loading, defaulting, output override and
finalization. Returns the resulting state together with `some message` when
the pass aborts (a synchronous throw or a rejected promise). -/
def validate (inp : ValidateInput) : VState × Option String :=
  match resolveEntriesStage inp with
  | (logs, .error e) => ({ logs := logs }, some e)
  | (logs, .ok entries) =>
    let s1 : VState :=
      { logs := logs, libServerless := true, libOptions := true, libEntries := some entries }
    match loadConfigStage inp with
    | (l2, .error e) => ({ s1 with logs := s1.logs ++ l2 }, some e)
    | (l2, .ok cfg0) =>
      let s2 := { s1 with logs := s1.logs ++ l2 }
      finalizeStage inp entries (applyOut inp (applyDefaults inp.servicePath cfg0)) s2

/-! ## Test fixtures (from `tests/validate.test.js`) -/

deriving instance DecidableEq for Except

/-- The four declared functions of the test fixture `testFunctionsConfig`. -/
def testFns : List (String × SFunction) :=
  [("func1", ⟨"module1.func1handler"⟩), ("func2", ⟨"module2.func2handler"⟩),
   ("func3", ⟨"handlers/func3/module2.func3handler"⟩),
   ("func4", ⟨"handlers/module2/func3/module2.func3handler"⟩)]

/-- The listing-service stub of the tests: one candidate, the glob pattern
with `*` replaced by `js`. -/
def globJs : String → List String := fun pat =>
  [String.mk (pat.data.flatMap (fun c => if c = '*' then ['j', 's'] else [c]))]

/-- The base configuration of the isolated-packaging tests (`output.path =
'output'`, a `devtool`, a `context` and an output `libraryTarget`). -/
def baseCfgC3 : WebpackConfig :=
  { devtool := some "source-map", context := some "some context",
    output := some ⟨some "commonjs", some "output", none⟩ }

/-- Isolated-packaging input: four functions with four distinct base paths. -/
def inpC3 : ValidateInput :=
  { servicePath := "testpath", functions := testFns, individually := true,
    customWebpack := some (.inline baseCfgC3), glob := globJs }

/-- The entry map resolved for `testFns` under `globJs`. -/
def entriesC3 : List (String × String) :=
  [("module1", "./module1.js"), ("module2", "./module2.js"),
   ("handlers/func3/module2", "./handlers/func3/module2.js"),
   ("handlers/module2/func3/module2", "./handlers/module2/func3/module2.js")]

/-- The expected fan-out configuration for one function of `inpC3`. -/
def expectedC3 (k v fname : String) : WebpackConfig :=
  { entry := some (.emap [(k, v)]), context := some "some context",
    target := some "node", devtool := some "source-map",
    output := some ⟨some "commonjs", some (pathJoin "output" fname), none⟩ }

/-! ## Claim theorems -/

/-- Claim C1: for base path `module1` with the candidate listing
`[module1.doc, module1.json, module1.test.js, module1.ts, module1.js]`,
`getEntryExtension` returns `.ts` and logs a warning naming the winner
`module1.ts`. -/
theorem claim1_resolveExtension_mostProbable :
    getEntryExtension
      (fun _ => ["module1.doc", "module1.json", "module1.test.js", "module1.ts", "module1.js"])
      "module1" =
    (["WARNING: More than one matching handlers found for 'module1'. Using 'module1.ts'."],
      .ok ".ts") := by
  decide

/-- Claim C2, counterexample: for the candidate set consisting of
`module1.js` and `module1.ts`, the resolver does NOT return `.js` regardless
of listing order — listed `[module1.ts, module1.js]` it returns `.ts`,
listed `[module1.js, module1.ts]` it returns `.js`, so the output is not
identical across listing orders of the same set. -/
theorem claim2_counterexample_order_dependence :
    (getEntryExtension (fun _ => ["module1.ts", "module1.js"]) "module1").2 =
      .ok ".ts" ∧
    (getEntryExtension (fun _ => ["module1.js", "module1.ts"]) "module1").2 =
      .ok ".js" ∧
    (Except.ok ".ts" : Except String String) ≠ .ok ".js" := by
  refine ⟨by decide, by decide, by decide⟩

/-- Claim C3: in isolated-packaging mode with the four fixture functions
(four distinct base paths), `validate` succeeds and produces exactly four
configurations in declaration order; the i-th has the singleton entry of the
i-th function, `output.path` equal to the base output path joined with the
function's name, and all other fields (devtool, context, target,
output.libraryTarget, output.filename) identical to the base
configuration's values. -/
theorem claim3_isolated_fanout_fixture :
    (validate inpC3).2 = none ∧
    (validate inpC3).1.webpackConfig = some (.multi
      [expectedC3 "module1" "./module1.js" "func1",
       expectedC3 "module2" "./module2.js" "func2",
       expectedC3 "handlers/func3/module2" "./handlers/func3/module2.js" "func3",
       expectedC3 "handlers/module2/func3/module2" "./handlers/module2/func3/module2.js"
         "func4"]) := by
  refine ⟨by decide, by decide⟩

/-- A raw configuration with no output (test `should set a default
webpackConfig.output if not present`). -/
def cfgC6a : WebpackConfig := { entry := some (.str "testentry") }

/-- Single-mode input with service path `testpath` and no configured
output. -/
def inpC6a : ValidateInput :=
  { servicePath := "testpath", customWebpack := some (.inline cfgC6a) }

/-- A raw configuration with an explicit output (test `should override the
output path if out option is specified`). -/
def cfgC6b : WebpackConfig :=
  { entry := some (.str "test"), context := some "testcontext",
    output := some ⟨none, some "originalpath", some "filename"⟩ }

/-- Single-mode input with service path `testpath`, a configured output and
the output-directory override `testdir`. -/
def inpC6b : ValidateInput :=
  { servicePath := "testpath", optOut := some "testdir", customWebpack := some (.inline cfgC6b) }

/-- Claim C6: with no configured output and service path `testpath` the
final single-mode `output.path` is `testpath/.webpack/service` (the default
`libraryTarget`/`filename` applied and the `service` segment appended); with
the override `testdir` supplied it is `testpath/testdir/service`. -/
theorem claim6_output_path_defaults :
    (validate inpC6a).2 = none ∧
    (validate inpC6a).1.webpackConfig = some (.single
      { entry := some (.str "testentry"), context := some "testpath", target := some "node",
        output := some ⟨some "commonjs", some "testpath/.webpack/service",
          some "[name].js"⟩ }) ∧
    (validate inpC6b).2 = none ∧
    (validate inpC6b).1.webpackConfig = some (.single
      { entry := some (.str "test"), context := some "testcontext", target := some "node",
        output := some ⟨none, some "testpath/testdir/service", some "filename"⟩ }) := by
  refine ⟨by decide, by decide, by decide, by decide⟩

/-- Claim C9: defaulting of `output` is all-or-nothing. The default
`{libraryTarget: commonjs, path: <servicePath>/.webpack, filename: [name].js}`
is installed exactly when the supplied output is absent or an empty object;
a non-empty partial output is passed through unchanged, with none of its
missing sub-fields filled in. -/
theorem claim9_output_default_all_or_nothing (sp : String) (cfg : WebpackConfig) :
    (applyDefaults sp cfg).output =
      if outputIsEmpty cfg.output then some (defaultOutput sp) else cfg.output := by
  unfold applyDefaults
  by_cases h1 : strTruthy cfg.context <;> by_cases h2 : strTruthy cfg.target <;>
    by_cases h3 : outputIsEmpty cfg.output <;> simp [h1, h2, h3]

/-- Processing an appended function list continues from the state reached by
the prefix, and an error in the prefix short-circuits. -/
theorem resolveEntriesList_append (g : String → List String) (p : Option String)
    (xs ys : List (String × SFunction)) (acc : List (String × String)) (logs : List String) :
    resolveEntriesList g p (xs ++ ys) acc logs =
      match resolveEntriesList g p xs acc logs with
      | (l, .ok a) => resolveEntriesList g p ys a l
      | (l, .error e) => (l, .error e) := by
  induction xs generalizing acc logs with
  | nil => simp [resolveEntriesList]
  | cons x xs ih =>
    simp only [List.cons_append, resolveEntriesList]
    rcases h : getEntryForFunction g p x.1 x.2 with ⟨l, r⟩
    cases r <;> simp [ih]

/-- Claim C5: when the candidate set for a function's base path is empty,
the whole resolution pass aborts with the fatal error naming that base path,
whatever functions follow — so no further function is processed. The
hypothesis `hpre` says the functions before it resolve successfully. -/
theorem claim5_no_candidate_aborts (g : String → List String) (p : Option String)
    (pre post : List (String × SFunction)) (n : String) (f : SFunction) (hf : String)
    (acc : List (String × String)) (logs : List String)
    (hpre : resolveEntriesList g p pre [] [] = (logs, .ok acc))
    (hparse : getHandlerFile f.handler = some hf) (hne : ¬ hf = "")
    (hempty : g (hf ++ ".*") = []) :
    resolveEntriesList g p (pre ++ (n, f) :: post) [] [] =
      (logs, .error ("No matching handler found for '" ++ hf ++
        "'. Check your service definition.")) := by
  rw [resolveEntriesList_append, hpre]
  simp only [resolveEntriesList, getEntryForFunction, hparse, hne, if_neg,
    getEntryExtension, hempty]
  simp

/-- Witness for C5: a concrete service whose second function has no
filesystem candidate; the pass aborts naming `module1` although a third
function follows. -/
theorem claim5_witness :
    resolveEntriesList (fun pat => if pat = "m0.*" then ["m0.js"] else []) none
      ([("f0", ⟨"m0.h0"⟩)] ++ ("func1", ⟨"module1.handler"⟩) :: [("f2", ⟨"m2.h2"⟩)]) [] [] =
      ([], .error "No matching handler found for 'module1'. Check your service definition.") :=
  claim5_no_candidate_aborts (fun pat => if pat = "m0.*" then ["m0.js"] else []) none
    [("f0", ⟨"m0.h0"⟩)] [("f2", ⟨"m2.h2"⟩)] "func1" ⟨"module1.handler"⟩ "module1"
    [("m0", "./m0.js")] [] (by decide) (by decide) (by decide) (by decide)

/-- A character list without a dot has no last-dot split. -/
theorem breakAtLastDot_of_not_mem (l : List Char) (h : '.' ∉ l) :
    breakAtLastDot l = none := by
  induction l with
  | nil => rfl
  | cons c cs ih =>
    rw [breakAtLastDot, ih (fun hm => h (List.mem_cons_of_mem _ hm))]
    have hc : ¬ c = '.' := fun hh => h (hh ▸ List.mem_cons_self _ _)
    simp [hc]

/-- A character list whose last-dot split is `none` has no dot. -/
theorem not_mem_of_breakAtLastDot (l : List Char) (h : breakAtLastDot l = none) :
    '.' ∉ l := by
  induction l with
  | nil => simp
  | cons c cs ih =>
    rw [breakAtLastDot] at h
    cases hcs : breakAtLastDot cs with
    | some pr => rw [hcs] at h; cases h
    | none =>
      rw [hcs] at h
      by_cases hc : c = '.'
      · simp [hc] at h
      · intro hmem
        rcases List.mem_cons.mp hmem with h1 | h2
        · exact hc h1.symm
        · exact ih hcs h2

/-- The last-dot split is exact: the input is the prefix, a dot, and a
dot-free suffix. -/
theorem breakAtLastDot_some (l pre suf : List Char)
    (h : breakAtLastDot l = some (pre, suf)) :
    l = pre ++ '.' :: suf ∧ '.' ∉ suf := by
  induction l generalizing pre suf with
  | nil => cases h
  | cons c cs ih =>
    rw [breakAtLastDot] at h
    cases hcs : breakAtLastDot cs with
    | some pr =>
      rw [hcs] at h
      obtain ⟨p, s⟩ := pr
      simp only [Option.some.injEq, Prod.mk.injEq] at h
      obtain ⟨h1, h2⟩ := h
      obtain ⟨hl, hs⟩ := ih p s hcs
      subst h1; subst h2
      exact ⟨by rw [hl]; rfl, hs⟩
    | none =>
      rw [hcs] at h
      by_cases hc : c = '.'
      · rw [if_pos hc] at h
        simp only [Option.some.injEq, Prod.mk.injEq] at h
        obtain ⟨h1, h2⟩ := h
        subst h1; subst h2
        exact ⟨by rw [hc]; rfl, not_mem_of_breakAtLastDot cs hcs⟩
      · rw [if_neg hc] at h
        cases h

/-- Claim C8: a handler string with no `.` parses to `none`, contributes no
entry (the merge of `[]` leaves the map unchanged), lets resolution continue
over the remaining functions, and emits the warning exactly when the
provider is not `google`; a handler `t` that parses to `some p` satisfies
`t = p ++ "." ++ suffix` with a dot-free suffix, i.e. `p` is everything
before the last `.`. -/
theorem claim8_handler_parsing (g : String → List String) (prov : Option String)
    (n : String) (f : SFunction) (rest : List (String × SFunction))
    (acc : List (String × String)) (logs : List String) (t p : String)
    (hnodot : '.' ∉ f.handler.data) (hdot : getHandlerFile t = some p) :
    getHandlerFile f.handler = none ∧
    getEntryForFunction g prov n f =
      ((if prov == some "google" then [] else [entryWarning n f.handler]), .ok []) ∧
    resolveEntriesList g prov ((n, f) :: rest) acc logs =
      resolveEntriesList g prov rest acc
        (logs ++ (if prov == some "google" then [] else [entryWarning n f.handler])) ∧
    t.data = p.data ++ '.' :: suffixAfterLastDot t ∧ '.' ∉ suffixAfterLastDot t := by
  have h0 : breakAtLastDot f.handler.data = none := breakAtLastDot_of_not_mem _ hnodot
  have hgh : getHandlerFile f.handler = none := by
    rw [getHandlerFile, h0]; rfl
  have hgf : getEntryForFunction g prov n f =
      ((if prov == some "google" then [] else [entryWarning n f.handler]), .ok []) := by
    rw [getEntryForFunction, hgh]
  refine ⟨hgh, hgf, ?_, ?_, ?_⟩
  · rw [resolveEntriesList]
    rw [show ((n, f) : String × SFunction).1 = n from rfl,
      show ((n, f) : String × SFunction).2 = f from rfl, hgf]
    rfl
  · rw [getHandlerFile] at hdot
    rcases hb : breakAtLastDot t.data with _ | ⟨pre, suf⟩
    · rw [hb] at hdot; cases hdot
    · rw [hb] at hdot
      simp only [Option.map_some', Option.some.injEq] at hdot
      have hp : p.data = pre := by rw [← hdot]
      have hsuf : suffixAfterLastDot t = suf := by rw [suffixAfterLastDot, hb]; rfl
      rw [hp, hsuf]
      exact (breakAtLastDot_some t.data pre suf hb).1
  · rw [getHandlerFile] at hdot
    rcases hb : breakAtLastDot t.data with _ | ⟨pre, suf⟩
    · rw [hb] at hdot; cases hdot
    · have hsuf : suffixAfterLastDot t = suf := by rw [suffixAfterLastDot, hb]; rfl
      rw [hsuf]
      exact (breakAtLastDot_some t.data pre suf hb).2

/-- Witness for C8: the dot-free handler `nodothandler` is skipped with a
warning (provider not google) and the fold continues; the handler
`module1.handler` parses to `module1` with dot-free suffix `handler`. -/
theorem claim8_witness :
    getHandlerFile "nodothandler" = none ∧
    getEntryForFunction (fun _ => []) none "func1" ⟨"nodothandler"⟩ =
      ([entryWarning "func1" "nodothandler"], .ok []) ∧
    resolveEntriesList (fun _ => []) none [("func1", ⟨"nodothandler"⟩)] [] [] =
      resolveEntriesList (fun _ => []) none [] []
        ([] ++ [entryWarning "func1" "nodothandler"]) ∧
    ("module1.handler" : String).data =
      ("module1" : String).data ++ '.' :: suffixAfterLastDot "module1.handler" ∧
    '.' ∉ suffixAfterLastDot "module1.handler" :=
  claim8_handler_parsing (fun _ => []) none "func1" ⟨"nodothandler"⟩ [] [] []
    "module1.handler" "module1" (by decide) (by decide)

/-- The finalization stage never touches the three shared `lib` fields. -/
theorem finalizeStage_lib (inp : ValidateInput) (entries : List (String × String))
    (cfg : WebpackConfig) (s : VState) :
    (finalizeStage inp entries cfg s).1.libServerless = s.libServerless ∧
    (finalizeStage inp entries cfg s).1.libOptions = s.libOptions ∧
    (finalizeStage inp entries cfg s).1.libEntries = s.libEntries := by
  unfold finalizeStage
  split_ifs <;> simp

/-- Claim C7: whenever `validate` aborts (any fatal fault: unknown selected
function, no filesystem candidate, configuration file not found,
configuration load error, conflicting explicit entry), the shared `lib`
state is never partially populated: either all three fields (serverless
instance, options, entry map) are unset, or all three are committed together
and the committed entry map is exactly the complete result of the
entry-resolution stage. -/
theorem claim7_no_partial_lib_state (inp : ValidateInput)
    (h : (validate inp).2.isSome = true) :
    (validate inp).1.libServerless = (validate inp).1.libOptions ∧
    (validate inp).1.libOptions = (validate inp).1.libEntries.isSome ∧
    ((validate inp).1.libEntries = none ∨
      (resolveEntriesStage inp).2 = .ok ((validate inp).1.libEntries.getD [])) := by
  unfold validate
  rcases hre : resolveEntriesStage inp with ⟨logs, r⟩
  cases r with
  | error e => simp
  | ok entries =>
    rcases hlc : loadConfigStage inp with ⟨l2, r2⟩
    cases r2 with
    | error e => simp
    | ok cfg0 =>
      have hfin := finalizeStage_lib inp entries
        (applyOut inp (applyDefaults inp.servicePath cfg0))
        { logs := logs ++ l2, libServerless := true, libOptions := true,
          libEntries := some entries }
      dsimp only
      dsimp only at hfin
      rw [hfin.1, hfin.2.1, hfin.2.2]
      simp

/-- Witness for C7: the default input aborts (its configuration file does
not exist) after the `lib` state was fully committed with the complete
(empty) entry map. -/
theorem claim7_witness :
    (validate { servicePath := "testpath" }).1.libServerless =
      (validate { servicePath := "testpath" }).1.libOptions ∧
    (validate { servicePath := "testpath" }).1.libOptions =
      (validate { servicePath := "testpath" }).1.libEntries.isSome ∧
    ((validate { servicePath := "testpath" }).1.libEntries = none ∨
      (resolveEntriesStage { servicePath := "testpath" }).2 =
        .ok ((validate { servicePath := "testpath" }).1.libEntries.getD [])) :=
  claim7_no_partial_lib_state { servicePath := "testpath" } (by decide)

/-- The output object of a configuration (`config.output`, empty when
absent). -/
def outputOf (cfg : WebpackConfig) : OutputConfig := cfg.output.getD {}

/-- The output path of a configuration (`config.output.path`). -/
def outPathOf (cfg : WebpackConfig) : String := (outputOf cfg).path.getD ""

/-- Claim C10: in the isolated-packaging fan-out, an entry whose
extension-stripped relative path matches no function's parsed handler base
path yields exactly one synthesized binding carrying no function name and no
function object, and the configuration generated from that binding appends
the lodash camel case of the entry key to the base output path. -/
theorem claim10_unmatched_entry_binding (pre post : List (String × String)) (k v : String)
    (aef : List EntryFnInfo) (cfg : WebpackConfig)
    (hno : ∀ fi ∈ aef, ¬ fi.handlerFile = some (entryFileOf v)) :
    mkEntryFunctions (pre ++ (k, v) :: post) aef =
      mkEntryFunctions pre aef ++
        ({ entry := some (k, v) } : EntryFunctionBinding) :: mkEntryFunctions post aef ∧
    mkConfig cfg { entry := some (k, v) } =
      { cfg with
        entry := some (.emap [(k, v)])
        output := some { outputOf cfg with
          path := some (pathJoin (outPathOf cfg) (camelCase k)) } } := by
  constructor
  · have hfil : aef.filter (fun fi => fi.handlerFile == some (entryFileOf v)) = [] := by
      rw [List.filter_eq_nil_iff]
      intro fi hfi
      simp [hno fi hfi]
    unfold mkEntryFunctions
    rw [List.flatMap_append, List.flatMap_cons]
    dsimp only
    rw [hfil]
    rfl
  · rfl

/-- The single non-matching declared function used by the C10 witness. -/
def aefC10 : List EntryFnInfo := mkAllEntryFunctions [("func1", ⟨"other.handler"⟩)]

/-- Witness for C10: the entry key `handlers/func3/module2` matches no
declared function, yields one empty binding, and its configuration appends
the camel case of the entry key to the base output path. -/
theorem claim10_witness :
    mkEntryFunctions ([] ++ ("handlers/func3/module2", "./handlers/func3/module2.js") :: [])
        aefC10 =
      mkEntryFunctions [] aefC10 ++
        ({ entry := some ("handlers/func3/module2", "./handlers/func3/module2.js") } :
          EntryFunctionBinding) :: mkEntryFunctions [] aefC10 ∧
    mkConfig baseCfgC3
        { entry := some ("handlers/func3/module2", "./handlers/func3/module2.js") } =
      { baseCfgC3 with
        entry := some (.emap [("handlers/func3/module2", "./handlers/func3/module2.js")])
        output := some { outputOf baseCfgC3 with
          path := some (pathJoin (outPathOf baseCfgC3)
            (camelCase "handlers/func3/module2")) } } :=
  claim10_unmatched_entry_binding [] [] "handlers/func3/module2"
    "./handlers/func3/module2.js" aefC10 baseCfgC3 (by decide)

/-- The camel-case segment of the C10 witness entry key evaluates to
`handlersFunc3Module2`, so the generated output path is
`output/handlersFunc3Module2`. -/
theorem claim10_camelCase_segment :
    camelCase "handlers/func3/module2" = "handlersFunc3Module2" ∧
    pathJoin "output" (camelCase "handlers/func3/module2") =
      "output/handlersFunc3Module2" := by
  refine ⟨by decide, by decide⟩

/-- Resolution over exactly two candidates that are both preferred and of
equal length: the stable sort keeps the listing order, deduplication keeps
the first occurrences, and the first-listed candidate's extension wins. -/
theorem getEntryExtension_pair (b x y : String)
    (hx : preferredExtensions.contains (extname x) = true)
    (hy : preferredExtensions.contains (extname y) = true)
    (hlen : x.length = y.length) (hne : ¬ x = y) :
    (getEntryExtension (fun _ => [x, y]) b).2 = .ok (extname x) := by
  have hne' : ¬ y = x := fun hh => hne hh.symm
  have hyx : (y == x) = false := by
    rw [beq_eq_false_iff_ne]
    exact hne'
  have hx' : extname x ∈ preferredExtensions := by simpa using hx
  have hy' : extname y ∈ preferredExtensions := by simpa using hy
  have hfil : [x, y].filter (fun f => preferredExtensions.contains (extname f)) = [x, y] := by
    simp [List.filter_cons, hx', hy']
  have hsort : sortByLen [x, y] = [x, y] := by
    simp [sortByLen, insertByLen, hlen]
  have hded : dedupFirst ([x, y] ++ [x, y]) = [x, y] := by
    simp [dedupFirst, dedupAux, List.contains_cons, hyx, hne']
  unfold getEntryExtension
  dsimp only
  rw [hfil, hsort, hded]
  rfl

/-- Claim C2, amended: for a base path `b` with candidate set
`{b.js, b.ts}` (both preferred, equal length), the resolver returns the
extension of the first-listed candidate: `.js` when the listing service
returns `[b.js, b.ts]` and `.ts` when it returns `[b.ts, b.js]` — the
result depends on the listing order, not only on the candidate set. -/
theorem claim2_amended_first_listed_wins (b : String)
    (h1 : extname (b ++ ".js") = ".js") (h2 : extname (b ++ ".ts") = ".ts") :
    (getEntryExtension (fun _ => [b ++ ".js", b ++ ".ts"]) b).2 = .ok ".js" ∧
    (getEntryExtension (fun _ => [b ++ ".ts", b ++ ".js"]) b).2 = .ok ".ts" := by
  have hne : ¬ (b ++ ".js" = b ++ ".ts") := by
    intro he
    rw [he, h2] at h1
    exact absurd h1 (by decide)
  have hlen : (b ++ ".js").length = (b ++ ".ts").length := by
    rw [String.length_append, String.length_append]
    rfl
  constructor
  · rw [getEntryExtension_pair b _ _ (by rw [h1]; decide) (by rw [h2]; decide) hlen hne, h1]
  · rw [getEntryExtension_pair b _ _ (by rw [h2]; decide) (by rw [h1]; decide) hlen.symm
      (fun hh => hne hh.symm), h2]

/-- Witness for the amended C2 at the fixture base path `module1`. -/
theorem claim2_amended_witness :
    (getEntryExtension (fun _ => ["module1" ++ ".js", "module1" ++ ".ts"]) "module1").2 =
      .ok ".js" ∧
    (getEntryExtension (fun _ => ["module1" ++ ".ts", "module1" ++ ".js"]) "module1").2 =
      .ok ".ts" :=
  claim2_amended_first_listed_wins "module1" (by decide) (by decide)

/-- The raw isolated-packaging configuration of the C4 scenario, with a
variable `entry` declaration. -/
def cfgC4 (ed : Option EntryDecl) : WebpackConfig :=
  { entry := ed, output := some ⟨none, some "output", none⟩ }

/-- Isolated-packaging input over the four fixture functions with a variable
raw `entry` declaration. -/
def inpC4 (ed : Option EntryDecl) : ValidateInput :=
  { servicePath := "testpath", functions := testFns, individually := true,
    customWebpack := some (.inline (cfgC4 ed)), glob := globJs }

/-- Claim C4, counterexample: the raw configuration declaring the explicit
entry `''` (the empty string) is not structurally equal to the resolved
entry map, yet `validate` succeeds — JavaScript truthiness treats the
empty-string entry as absent, so the claimed equivalence fails in the
only-if direction. -/
theorem claim4_counterexample_empty_string_entry :
    (cfgC4 (some (.str ""))).entry = some (.str "") ∧
    entryEqualsEntries (some (.str "")) entriesC3 = false ∧
    (validate (inpC4 (some (.str "")))).2 = none := by
  refine ⟨rfl, rfl, by decide⟩

/-- In the isolated mode with output removal enabled, the outcome of
`finalizeStage` is the conflict fault exactly when the raw entry is truthy
and not deep-equal to the resolved entries. -/
theorem finalizeStage_indiv_snd (inp : ValidateInput) (entries : List (String × String))
    (cfg : WebpackConfig) (s : VState)
    (hkeep : inp.keepOutputDirectory = false) (hind : inp.individually = true) :
    (finalizeStage inp entries cfg s).2 =
      (if entryTruthy cfg.entry && !(entryEqualsEntries cfg.entry entries) then
        some conflictMsg else none) := by
  unfold finalizeStage
  rw [hkeep, hind]
  simp only [Bool.false_eq_true, if_false, if_true]
  split <;> rfl

/-- The configuration of the C4 scenario after defaulting. -/
def cfgC4fin (ed : Option EntryDecl) : WebpackConfig :=
  { entry := ed, context := some "testpath", target := some "node",
    output := some ⟨none, some "output", none⟩ }

/-- The state reaching finalization in the C4 scenario: `lib` committed with
the resolved entries, no logs. -/
def sC4 : VState :=
  { libServerless := true, libOptions := true, libEntries := some entriesC3 }

/-- Claim C4, amended: in the isolated-packaging fixture, `validate` rejects
with the `must be automatically resolved` message exactly when the raw
configuration declares a truthy explicit entry (non-empty string, array or
object; an empty-string entry is treated as absent) that is not
structurally deep-equal to the resolved entry map; otherwise resolution
succeeds. -/
theorem claim4_amended_truthy_entry_conflict (ed : Option EntryDecl) :
    (validate (inpC4 ed)).2 =
      (if entryTruthy ed && !(entryEqualsEntries ed entriesC3) then some conflictMsg
       else none) := by
  have h0 : validate (inpC4 ed) = finalizeStage (inpC4 ed) entriesC3 (cfgC4fin ed) sC4 := rfl
  rw [h0]
  exact finalizeStage_indiv_snd (inpC4 ed) entriesC3 (cfgC4fin ed) sC4 rfl rfl
